import Mathlib

/-!
Verification of the viral-trend pipeline in `trend_finder.py`.

The development shallowly embeds the pipeline core of the script:
the duration parser `get_seconds`, the classifier `get_video_type`, the
search-collection loop (`all_video_ids` / `all_channel_ids` /
`video_snippets_map`), the batched statistics fetch
(`video_stats_map` / `channel_stats_map`), and the join-filter-score
section producing `final_results` and `df_sorted`.

Modelling conventions:
* Python dicts keyed by strings become functions `String → Option α`;
  `dict.get` is application, `d[k] = v` is a pointwise update.
* API JSON objects become structures whose optional fields are `Option`
  (mirroring `.get(key, default)` in the source); fields the source reads
  unconditionally (such as `snippet["publishedAt"]`) are plain fields.
* Python ints are `ℕ`/`ℤ`; Python floats are modelled as exact rationals
  `ℚ` (all values the claims mention are exactly representable), with
  `round(x, 2)` modelled as round-half-to-even at two decimals.
* `datetime` values are seconds counts: a timestamp carries its naive
  wall-clock seconds and its UTC-offset seconds; `replace(tzinfo=None)`
  keeps only the wall-clock part, and `timedelta.days` is floor division
  by 86400 (`Int.fdiv`).
* Network responses are inputs: a response either lacks an `items` key
  (`none`) or carries a list of items (`some items`).
-/

/-! ### Duration parser (`get_seconds`, trend_finder.py lines 61-67)

The source matches `re.match('PT(?:(\d+)H)?(?:(\d+)M)?(?:(\d+)S)?', s)`.
The regex requires the literal prefix `PT`; each optional group greedily
reads a maximal digit run and commits only if the following character is
the group's unit letter (the unit letters are not digits, so the greedy
run never backtracks into a successful match).  A failed group consumes
nothing.  Absent groups contribute 0 via `int(x) if x else 0`. -/

/-- Numeric value of a big-endian list of decimal digit characters,
modelling Python `int()` applied to a regex group of `\d+`. -/
def digitsToNat (ds : List Char) : ℕ :=
  ds.foldl (fun a c => 10 * a + (c.toNat - 48)) 0

/-- One optional regex group `(?:(\d+)X)?` at the head of `cs`: greedily
take the maximal digit run; if it is nonempty and followed by the unit
character `suffix`, return its value and the remainder, else leave `cs`
untouched. -/
def parseGroup (suffix : Char) (cs : List Char) : Option ℕ × List Char :=
  let ds := cs.takeWhile (·.isDigit)
  if ds = [] then (none, cs)
  else
    match cs.drop ds.length with
    | c :: rest => if c = suffix then (some (digitsToNat ds), rest) else (none, cs)
    | [] => (none, cs)

/-- The three optional groups of the duration regex, applied in order to
the characters after the `PT` prefix; absent groups contribute 0 via
`int(x) if x else 0` and `h * 3600 + m * 60 + s`. -/
def parseHMS (cs : List Char) : ℕ :=
  let p1 := parseGroup 'H' cs
  let p2 := parseGroup 'M' p1.2
  let p3 := parseGroup 'S' p2.2
  (p1.1.getD 0) * 3600 + (p2.1.getD 0) * 60 + p3.1.getD 0

/-- Embeds `get_seconds` (trend_finder.py lines 61-67): `PT` prefix, then
the three optional groups for hours, minutes, seconds; any string not
starting with `PT` fails the regex and yields 0. -/
def get_seconds (s : String) : ℕ :=
  match s.data with
  | p :: t :: cs => if p = 'P' ∧ t = 'T' then parseHMS cs else 0
  | _ => 0

/-- Whether the string starts with the literal `PT` required by the regex. -/
def startsPT (s : String) : Bool :=
  match s.data with
  | p :: t :: _ => p = 'P' && t = 'T'
  | _ => false

/-- Canonical decimal rendering of a natural number, used to build
well-formed duration tokens for the grammar theorem. -/
def natDigits (n : ℕ) : List Char :=
  if n = 0 then ['0']
  else (Nat.digits 10 n).reverse.map fun d => Char.ofNat (48 + d)

/-- One optional component of a duration token: digits followed by the
unit letter when present, empty when absent. -/
def durPart (o : Option ℕ) (suffix : Char) : List Char :=
  match o with
  | none => []
  | some n => natDigits n ++ [suffix]

/-- A duration token `PT[nH][nM][nS]` with any subset of the three
components present, in that order. -/
def mkDuration (oh om os : Option ℕ) : String :=
  ⟨'P' :: 'T' :: (durPart oh 'H' ++ (durPart om 'M' ++ durPart os 'S'))⟩

/-! ### Classifier (`get_video_type`, trend_finder.py lines 69-72) -/

/-- Embeds `get_video_type`: short-form exactly when
`duration_seconds > 0 and duration_seconds <= 60`. -/
def get_video_type (duration_seconds : ℤ) : String :=
  if 0 < duration_seconds ∧ duration_seconds ≤ 60 then "Shorts (<= 60s)"
  else "Long Form (> 60s)"

/-! ### Supporting lemmas for the duration grammar -/

lemma digit_char_mem_natDigits (n : ℕ) : ∀ c ∈ natDigits n, c.isDigit = true := by
  intro c hc
  unfold natDigits at hc
  split at hc
  · simp only [List.mem_singleton] at hc
    subst hc; decide
  · simp only [List.mem_map, List.mem_reverse] at hc
    obtain ⟨d, hd, rfl⟩ := hc
    have hlt : d < 10 := Nat.digits_lt_base (by norm_num) hd
    interval_cases d <;> decide

lemma natDigits_ne_nil (n : ℕ) : natDigits n ≠ [] := by
  unfold natDigits
  split
  · simp
  · have : Nat.digits 10 n ≠ [] := Nat.digits_ne_nil_iff_ne_zero.mpr (by assumption)
    simp [this]

lemma digitsToNat_natDigits (n : ℕ) : digitsToNat (natDigits n) = n := by
  by_cases h0 : n = 0
  · subst h0; decide
  · unfold natDigits
    rw [if_neg h0]
    unfold digitsToNat
    rw [List.foldl_map]
    have hstep : List.foldl (fun a d => 10 * a + ((Char.ofNat (48 + d)).toNat - 48)) 0
        ((Nat.digits 10 n).reverse)
        = List.foldl (fun a d => 10 * a + d) 0 ((Nat.digits 10 n).reverse) := by
      apply List.foldl_ext
      intro a d hd
      rw [List.mem_reverse] at hd
      have hlt : d < 10 := Nat.digits_lt_base (by norm_num) hd
      have : (Char.ofNat (48 + d)).toNat - 48 = d := by interval_cases d <;> decide
      rw [this]
    rw [hstep]
    have hfold : ∀ ds : List ℕ,
        List.foldl (fun a d => 10 * a + d) 0 ds.reverse = Nat.ofDigits 10 ds := by
      intro ds
      induction ds with
      | nil => simp [Nat.ofDigits]
      | cons d ds ih =>
        rw [List.reverse_cons, List.foldl_append, ih, Nat.ofDigits_cons]
        simp
        ring
    rw [hfold]
    exact_mod_cast Nat.ofDigits_digits 10 n

lemma takeWhile_digits_append (dg : List Char) (c : Char) (rest : List Char)
    (hdg : ∀ x ∈ dg, x.isDigit = true) (hc : c.isDigit = false) :
    (dg ++ c :: rest).takeWhile (·.isDigit) = dg := by
  induction dg with
  | nil => simp [List.takeWhile_cons, hc]
  | cons d ds ih =>
    have hd : d.isDigit = true := hdg d (by simp)
    rw [List.cons_append, List.takeWhile_cons, hd]
    simp only [if_true]
    rw [ih (fun x hx => hdg x (by simp [hx]))]

lemma parseGroup_hit (suffix : Char) (n : ℕ) (rest : List Char)
    (hs : suffix.isDigit = false) :
    parseGroup suffix (natDigits n ++ suffix :: rest) = (some n, rest) := by
  have h1 : (natDigits n ++ suffix :: rest).takeWhile (·.isDigit) = natDigits n :=
    takeWhile_digits_append _ _ _ (digit_char_mem_natDigits n) hs
  have h2 : (natDigits n ++ suffix :: rest).drop (natDigits n).length = suffix :: rest :=
    List.drop_left _ _
  simp only [parseGroup, h1, h2, if_neg (natDigits_ne_nil n), if_pos rfl, if_true,
    digitsToNat_natDigits]

lemma parseGroup_miss (suffix c : Char) (n : ℕ) (rest : List Char)
    (hc : c.isDigit = false) (hne : c ≠ suffix) :
    parseGroup suffix (natDigits n ++ c :: rest) = (none, natDigits n ++ c :: rest) := by
  have h1 : (natDigits n ++ c :: rest).takeWhile (·.isDigit) = natDigits n :=
    takeWhile_digits_append _ _ _ (digit_char_mem_natDigits n) hc
  have h2 : (natDigits n ++ c :: rest).drop (natDigits n).length = c :: rest :=
    List.drop_left _ _
  simp only [parseGroup, h1, h2, if_neg (natDigits_ne_nil n), if_neg hne]

lemma parseGroup_nil (suffix : Char) : parseGroup suffix [] = (none, []) := rfl

lemma parseGroup_S (os : Option ℕ) :
    parseGroup 'S' (durPart os 'S') = (os, []) := by
  cases os with
  | none => exact parseGroup_nil 'S'
  | some n => exact parseGroup_hit 'S' n [] (by decide)

lemma parseGroup_M (om os : Option ℕ) :
    parseGroup 'M' (durPart om 'M' ++ durPart os 'S') = (om, durPart os 'S') := by
  cases om with
  | some m =>
    have : durPart (some m) 'M' ++ durPart os 'S'
        = natDigits m ++ 'M' :: durPart os 'S' := by
      simp [durPart]
    rw [this]
    exact parseGroup_hit 'M' m _ (by decide)
  | none =>
    rw [show durPart none 'M' = [] from rfl, List.nil_append]
    cases os with
    | none => exact parseGroup_nil 'M'
    | some n =>
      rw [show durPart (some n) 'S' = natDigits n ++ 'S' :: [] from rfl]
      exact parseGroup_miss 'M' 'S' n _ (by decide) (by decide)

lemma parseGroup_H (oh om os : Option ℕ) :
    parseGroup 'H' (durPart oh 'H' ++ (durPart om 'M' ++ durPart os 'S'))
      = (oh, durPart om 'M' ++ durPart os 'S') := by
  cases oh with
  | some h =>
    have : durPart (some h) 'H' ++ (durPart om 'M' ++ durPart os 'S')
        = natDigits h ++ 'H' :: (durPart om 'M' ++ durPart os 'S') := by
      simp [durPart]
    rw [this]
    exact parseGroup_hit 'H' h _ (by decide)
  | none =>
    rw [show durPart none 'H' = [] from rfl, List.nil_append]
    cases om with
    | some m =>
      have hr : durPart (some m) 'M' ++ durPart os 'S'
          = natDigits m ++ 'M' :: durPart os 'S' := by
        simp [durPart]
      rw [hr]
      exact parseGroup_miss 'H' 'M' m _ (by decide) (by decide)
    | none =>
      rw [show durPart none 'M' = [] from rfl, List.nil_append]
      cases os with
      | none => exact parseGroup_nil 'H'
      | some n =>
        rw [show durPart (some n) 'S' = natDigits n ++ 'S' :: [] from rfl]
        exact parseGroup_miss 'H' 'S' n _ (by decide) (by decide)

lemma parseHMS_mkDuration (oh om os : Option ℕ) :
    get_seconds (mkDuration oh om os)
      = (oh.getD 0) * 3600 + (om.getD 0) * 60 + os.getD 0 := by
  have h0 : get_seconds (mkDuration oh om os)
      = parseHMS (durPart oh 'H' ++ (durPart om 'M' ++ durPart os 'S')) := rfl
  rw [h0]
  simp only [parseHMS, parseGroup_H, parseGroup_M, parseGroup_S]

lemma get_seconds_no_PT (s : String) (h : startsPT s = false) : get_seconds s = 0 := by
  unfold startsPT at h
  unfold get_seconds
  cases hd : s.data with
  | nil => rfl
  | cons p rest =>
    cases rest with
    | nil => rfl
    | cons t cs =>
      rw [hd] at h
      by_cases hpt : p = 'P' ∧ t = 'T'
      · exfalso
        rw [hpt.1, hpt.2] at h
        simp at h
      · simp [hpt]

/-- C4: every duration token of the form `PT[nH][nM][nS]` (any subset of
the three components present, in that order, absent components defaulting
to zero) parses to `h * 3600 + m * 60 + s`; the spec's examples hold, and
a token that does not match the grammar at all (it does not even start
with `PT`, such as `"XYZ"`) yields 0 rather than an error. -/
theorem get_seconds_spec :
    (∀ oh om os : Option ℕ,
        get_seconds (mkDuration oh om os)
          = (oh.getD 0) * 3600 + (om.getD 0) * 60 + os.getD 0)
    ∧ get_seconds "PT1M30S" = 90
    ∧ get_seconds "PT2H" = 7200
    ∧ get_seconds "PT45S" = 45
    ∧ get_seconds "XYZ" = 0
    ∧ (∀ s : String, startsPT s = false → get_seconds s = 0) :=
  ⟨parseHMS_mkDuration, by decide, by decide, by decide, by decide, get_seconds_no_PT⟩

/-- Witness for C4: the theorem applied at the concrete malformed token
`"ABC"`, discharging the `startsPT` hypothesis by evaluation. -/
theorem get_seconds_spec_witness :
    startsPT "ABC" = false ∧ get_seconds "ABC" = 0 :=
  ⟨by decide, get_seconds_spec.2.2.2.2.2 "ABC" (by decide)⟩

/-- C5: the classifier returns the short-form category exactly when
`0 < seconds ≤ 60` and the long-form category otherwise, with the spec's
four example inputs 45, 60, 61 and 0. -/
theorem get_video_type_spec :
    (∀ n : ℤ, get_video_type n = "Shorts (<= 60s)" ↔ 0 < n ∧ n ≤ 60)
    ∧ (∀ n : ℤ, get_video_type n = "Long Form (> 60s)" ↔ ¬(0 < n ∧ n ≤ 60))
    ∧ get_video_type 45 = "Shorts (<= 60s)"
    ∧ get_video_type 60 = "Shorts (<= 60s)"
    ∧ get_video_type 61 = "Long Form (> 60s)"
    ∧ get_video_type 0 = "Long Form (> 60s)" := by
  refine ⟨?_, ?_, by decide, by decide, by decide, by decide⟩
  · intro n
    unfold get_video_type
    split_ifs with h
    · exact iff_of_true rfl h
    · exact iff_of_false (by decide) h
  · intro n
    unfold get_video_type
    split_ifs with h
    · exact iff_of_false (by decide) (not_not_intro h)
    · exact iff_of_true rfl h

/-! ### Data model for the join-filter-score engine
(trend_finder.py lines 164-220)

API items become structures; optional JSON fields read through `.get`
are `Option` fields, fields read by indexing (`snippet["publishedAt"]`,
`stat["statistics"]`, `item['id']`) are plain fields. -/

/-- A `publishedAt` timestamp parsed by
`datetime.strptime(s, "%Y-%m-%dT%H:%M:%S%z")`: naive wall-clock seconds
plus the UTC-offset seconds carried by `%z`; `replace(tzinfo=None)`
keeps only `wallSeconds`. -/
structure Timestamp where
  wallSeconds : ℤ
  offsetSeconds : ℤ
deriving DecidableEq

/-- A search-result `snippet` object. -/
structure Snippet where
  channelId : Option String
  title : Option String
  channelTitle : Option String
  description : Option String
  publishedAt : Timestamp
deriving DecidableEq

/-- The `statistics` part of a video item. -/
structure VideoStatistics where
  viewCount : Option ℕ
deriving DecidableEq

/-- The `contentDetails` part of a video item. -/
structure ContentDetails where
  duration : Option String
deriving DecidableEq

/-- One item of a videos-endpoint response (`part=statistics,snippet,contentDetails`). -/
structure VideoItem where
  id : String
  statistics : VideoStatistics
  contentDetails : ContentDetails
deriving DecidableEq

/-- The `statistics` part of a channel item. -/
structure ChannelStatistics where
  subscriberCount : Option ℕ
deriving DecidableEq

/-- One item of a channels-endpoint response. -/
structure ChannelItem where
  id : String
  statistics : ChannelStatistics
deriving DecidableEq

/-- One row appended to `final_results` (trend_finder.py lines 200-211). -/
structure ResultRow where
  Video_ID : String
  Title : String
  Channel_Title : String
  Video_Type : String
  Views : ℕ
  Subscribers : ℕ
  Virality_Score : ℚ
  Days_Published : ℤ
  Link : String
  Description_Snippet : String
deriving DecidableEq

/-- Python `round` at 0 decimals on an exact rational: round half to even. -/
def roundHalfToEven (q : ℚ) : ℤ :=
  if q - ⌊q⌋ < 1 / 2 then ⌊q⌋
  else if 1 / 2 < q - ⌊q⌋ then ⌊q⌋ + 1
  else if ⌊q⌋ % 2 = 0 then ⌊q⌋ else ⌊q⌋ + 1

/-- Python `round(x, 2)` on the exact-rational model of a float. -/
def pyRound2 (q : ℚ) : ℚ := (roundHalfToEven (q * 100) : ℚ) / 100

/-- The dictionary literal appended to `final_results`
(trend_finder.py lines 200-211), given the joined objects for one video. -/
def mkRow (v_id : String) (snippet : Snippet) (stat : VideoItem)
    (channel_stat : ChannelItem) (now : ℤ) : ResultRow :=
  let views : ℕ := stat.statistics.viewCount.getD 0
  let subs : ℕ := channel_stat.statistics.subscriberCount.getD 0
  let duration_seconds : ℕ := get_seconds (stat.contentDetails.duration.getD "PT0S")
  { Video_ID := v_id
    Title := snippet.title.getD "N/A"
    Channel_Title := snippet.channelTitle.getD "N/A"
    Video_Type := get_video_type (duration_seconds : ℤ)
    Views := views
    Subscribers := subs
    Virality_Score := pyRound2 ((views : ℚ) / ((subs : ℚ) + 1))
    Days_Published := (now - snippet.publishedAt.wallSeconds).fdiv 86400
    Link := "https://www.youtube.com/watch?v=" ++ v_id
    Description_Snippet := (snippet.description.getD "").take 100 ++ "..." }

/-- The body of the join-filter loop (trend_finder.py lines 168-211) for a
single identifier: look up snippet and video statistics (skip if either is
absent), look up the channel statistics through the snippet's channel
identifier (skip if absent), apply filter 1 (`subs <= max_subs`) and then
filter 2 (`virality_score >= min_virality` on the unrounded score), and on
success emit the appended row. -/
def processVideo (video_snippets_map : String → Option Snippet)
    (video_stats_map : String → Option VideoItem)
    (channel_stats_map : String → Option ChannelItem)
    (max_subs : ℕ) (min_virality : ℚ) (now : ℤ) (v_id : String) : Option ResultRow :=
  match video_snippets_map v_id, video_stats_map v_id with
  | some snippet, some stat =>
    match Option.bind snippet.channelId channel_stats_map with
    | some channel_stat =>
      if channel_stat.statistics.subscriberCount.getD 0 ≤ max_subs then
        if min_virality ≤ (stat.statistics.viewCount.getD 0 : ℚ)
            / ((channel_stat.statistics.subscriberCount.getD 0 : ℚ) + 1) then
          some (mkRow v_id snippet stat channel_stat now)
        else none
      else none
    | none => none
  | _, _ => none

/-- `final_results` (trend_finder.py lines 167-211): the loop over
`all_video_ids` collecting the rows that pass both filters, in
identifier order. -/
def final_results (video_snippets_map : String → Option Snippet)
    (video_stats_map : String → Option VideoItem)
    (channel_stats_map : String → Option ChannelItem)
    (all_video_ids : List String)
    (max_subs : ℕ) (min_virality : ℚ) (now : ℤ) : List ResultRow :=
  all_video_ids.filterMap
    (processVideo video_snippets_map video_stats_map channel_stats_map
      max_subs min_virality now)

/-- Ascending comparison on the stored virality score, the sort key of
`df.sort_values(by="Virality_Score", ascending=False)`. -/
def byScoreAsc (a b : ResultRow) : Prop := a.Virality_Score ≤ b.Virality_Score

instance : DecidableRel byScoreAsc := fun a b =>
  inferInstanceAs (Decidable (a.Virality_Score ≤ b.Virality_Score))

instance : IsTotal ResultRow byScoreAsc := ⟨fun x y => le_total x.Virality_Score y.Virality_Score⟩

instance : IsTrans ResultRow byScoreAsc := ⟨fun _ _ _ => le_trans⟩

/-- Model of `df.sort_values(by="Virality_Score", ascending=False)`
(trend_finder.py line 220).  pandas sorts a single-key frame with
`nargsort`, which for `ascending=False` reverses the value array and the
index array *before* the ascending argsort and reverses the resulting
indexer *after* (its stable-descending fix, GH #6399).  Whenever the
underlying argsort is stable the net effect is a stable descending sort:
in list form, reverse the rows, sort them ascending with a stable sort,
and reverse the result.  The default `kind='quicksort'` (numpy introsort)
is its stable insertion-sort phase for frames of at most 16 rows; every
concrete evaluation below stays well inside that range. -/
def sort_values_desc (rows : List ResultRow) : List ResultRow :=
  (List.insertionSort byScoreAsc rows.reverse).reverse

/-- `df_sorted` (trend_finder.py line 220): the final ranked output. -/
def df_sorted (video_snippets_map : String → Option Snippet)
    (video_stats_map : String → Option VideoItem)
    (channel_stats_map : String → Option ChannelItem)
    (all_video_ids : List String)
    (max_subs : ℕ) (min_virality : ℚ) (now : ℤ) : List ResultRow :=
  sort_values_desc
    (final_results video_snippets_map video_stats_map channel_stats_map
      all_video_ids max_subs min_virality now)

/-! ### Characterisation of the join-filter loop body -/

lemma processVideo_eq_some (video_snippets_map : String → Option Snippet)
    (video_stats_map : String → Option VideoItem)
    (channel_stats_map : String → Option ChannelItem)
    (max_subs : ℕ) (min_virality : ℚ) (now : ℤ) (v_id : String) (row : ResultRow) :
    processVideo video_snippets_map video_stats_map channel_stats_map
        max_subs min_virality now v_id = some row ↔
      ∃ snippet stat channel_stat,
        video_snippets_map v_id = some snippet ∧
        video_stats_map v_id = some stat ∧
        Option.bind snippet.channelId channel_stats_map = some channel_stat ∧
        channel_stat.statistics.subscriberCount.getD 0 ≤ max_subs ∧
        min_virality ≤ (stat.statistics.viewCount.getD 0 : ℚ)
          / ((channel_stat.statistics.subscriberCount.getD 0 : ℚ) + 1) ∧
        row = mkRow v_id snippet stat channel_stat now := by
  constructor
  · intro h
    cases hs : video_snippets_map v_id with
    | none => cases hv : video_stats_map v_id <;> simp [processVideo, hs, hv] at h
    | some snippet =>
      cases hv : video_stats_map v_id with
      | none => simp [processVideo, hs, hv] at h
      | some stat =>
        cases hc : Option.bind snippet.channelId channel_stats_map with
        | none => simp [processVideo, hs, hv, hc] at h
        | some channel_stat =>
          by_cases h1 : channel_stat.statistics.subscriberCount.getD 0 ≤ max_subs
          · by_cases h2 : min_virality ≤ (stat.statistics.viewCount.getD 0 : ℚ)
                / ((channel_stat.statistics.subscriberCount.getD 0 : ℚ) + 1)
            · simp only [processVideo, hs, hv, hc, if_pos h1, if_pos h2,
                Option.some.injEq] at h
              exact ⟨snippet, stat, channel_stat, rfl, rfl, hc, h1, h2, h.symm⟩
            · simp [processVideo, hs, hv, hc, if_pos h1, if_neg h2] at h
          · simp [processVideo, hs, hv, hc, if_neg h1] at h
  · rintro ⟨snippet, stat, channel_stat, hs, hv, hc, h1, h2, rfl⟩
    simp only [processVideo, hs, hv, hc, if_pos h1, if_pos h2]

lemma processVideo_id (video_snippets_map : String → Option Snippet)
    (video_stats_map : String → Option VideoItem)
    (channel_stats_map : String → Option ChannelItem)
    (max_subs : ℕ) (min_virality : ℚ) (now : ℤ) (v_id : String) (row : ResultRow)
    (h : processVideo video_snippets_map video_stats_map channel_stats_map
        max_subs min_virality now v_id = some row) :
    row.Video_ID = v_id := by
  obtain ⟨snippet, stat, channel_stat, _, _, _, _, _, rfl⟩ :=
    (processVideo_eq_some _ _ _ _ _ _ _ _).mp h
  rfl

lemma df_sorted_perm_final_results (video_snippets_map : String → Option Snippet)
    (video_stats_map : String → Option VideoItem)
    (channel_stats_map : String → Option ChannelItem)
    (all_video_ids : List String) (max_subs : ℕ) (min_virality : ℚ) (now : ℤ) :
    (df_sorted video_snippets_map video_stats_map channel_stats_map
        all_video_ids max_subs min_virality now).Perm
      (final_results video_snippets_map video_stats_map channel_stats_map
        all_video_ids max_subs min_virality now) :=
  ((List.reverse_perm _).trans (List.perm_insertionSort _ _)).trans
    (List.reverse_perm _)

/-- Inserting `a` does not disturb the relative order of the rows sharing
any score value: below the insertion point every row's score is strictly
smaller than `a`'s. -/
lemma orderedInsert_filter_score (q : ℚ) (a : ResultRow) :
    ∀ L : List ResultRow,
      (List.orderedInsert byScoreAsc a L).filter (fun x => x.Virality_Score == q)
        = if a.Virality_Score = q
          then a :: L.filter (fun x => x.Virality_Score == q)
          else L.filter (fun x => x.Virality_Score == q) := by
  intro L
  induction L with
  | nil =>
    by_cases hq : a.Virality_Score = q
    · simp [List.orderedInsert, hq]
    · simp [List.orderedInsert, hq]
  | cons b L ih =>
    rw [List.orderedInsert]
    by_cases hab : byScoreAsc a b
    · rw [if_pos hab, List.filter_cons]
      by_cases hq : a.Virality_Score = q
      · simp [hq]
      · simp [hq]
    · rw [if_neg hab, List.filter_cons, ih, List.filter_cons]
      by_cases hq : a.Virality_Score = q
      · have hb : b.Virality_Score ≠ q := by
          have hlt : b.Virality_Score < a.Virality_Score := not_le.mp hab
          rw [hq] at hlt
          exact ne_of_lt hlt
        simp [hq, hb]
      · simp [hq]

/-- The stable ascending sort keeps, for each score value, the rows with
that score in their input order. -/
lemma insertionSort_filter_score (q : ℚ) :
    ∀ l : List ResultRow,
      (List.insertionSort byScoreAsc l).filter (fun x => x.Virality_Score == q)
        = l.filter (fun x => x.Virality_Score == q) := by
  intro l
  induction l with
  | nil => rfl
  | cons a l ih =>
    rw [List.insertionSort, orderedInsert_filter_score, ih, List.filter_cons]
    by_cases hq : a.Virality_Score = q
    · simp [hq]
    · simp [hq]

/-! ### Concrete inputs used by the witnesses

Two videos on two small channels with equal unrounded virality scores:
`v1` has 500 views on a 99-subscriber channel, `v2` has 1000 views on a
199-subscriber channel, so both score exactly 5 — also exercising the
stable handling of tied scores. -/

def exTs : Timestamp := ⟨1000000, 0⟩

def exSnippet1 : Snippet := ⟨some "c1", some "T1", some "CT1", some "D1", exTs⟩

def exSnippet2 : Snippet := ⟨some "c2", some "T2", some "CT2", some "D2", exTs⟩

def exVideo1 : VideoItem := ⟨"v1", ⟨some 500⟩, ⟨some "PT45S"⟩⟩

def exVideo2 : VideoItem := ⟨"v2", ⟨some 1000⟩, ⟨some "PT2H"⟩⟩

def exChannel1 : ChannelItem := ⟨"c1", ⟨some 99⟩⟩

def exChannel2 : ChannelItem := ⟨"c2", ⟨some 199⟩⟩

def exSnippets : String → Option Snippet := fun k =>
  if k = "v1" then some exSnippet1 else if k = "v2" then some exSnippet2 else none

def exVideoStats : String → Option VideoItem := fun k =>
  if k = "v1" then some exVideo1 else if k = "v2" then some exVideo2 else none

def exChannelStats : String → Option ChannelItem := fun k =>
  if k = "c1" then some exChannel1 else if k = "c2" then some exChannel2 else none

def exNow : ℤ := 1000000 + 3 * 86400

def exRow1 : ResultRow := mkRow "v1" exSnippet1 exVideo1 exChannel1 exNow

def exRow2 : ResultRow := mkRow "v2" exSnippet2 exVideo2 exChannel2 exNow


/-! ### Evaluation lemmas for the concrete inputs

ℚ-valued arithmetic is settled with `norm_num` rather than kernel
evaluation, through the two rounding lemmas below. -/

lemma roundHalfToEven_intCast (n : ℤ) : roundHalfToEven ((n : ℚ)) = n := by
  unfold roundHalfToEven
  rw [Int.floor_intCast, sub_self]
  norm_num

lemma pyRound2_intCast (n : ℤ) : pyRound2 ((n : ℚ)) = (n : ℚ) := by
  unfold pyRound2
  rw [show ((n : ℚ) * 100) = ((n * 100 : ℤ) : ℚ) by push_cast; ring,
    roundHalfToEven_intCast]
  push_cast
  field_simp

lemma pyRound2_eq_int (q : ℚ) (n : ℤ) (h : q = (n : ℚ)) : pyRound2 q = (n : ℚ) := by
  rw [h, pyRound2_intCast]

lemma ex_proc1 : processVideo exSnippets exVideoStats exChannelStats 3000 5 exNow "v1"
    = some exRow1 :=
  (processVideo_eq_some _ _ _ _ _ _ _ _).mpr
    ⟨exSnippet1, exVideo1, exChannel1, rfl, rfl, rfl, by decide,
     by norm_num [exVideo1, exChannel1], rfl⟩

lemma ex_proc2 : processVideo exSnippets exVideoStats exChannelStats 3000 5 exNow "v2"
    = some exRow2 :=
  (processVideo_eq_some _ _ _ _ _ _ _ _).mpr
    ⟨exSnippet2, exVideo2, exChannel2, rfl, rfl, rfl, by decide,
     by norm_num [exVideo2, exChannel2], rfl⟩

lemma ex_final : final_results exSnippets exVideoStats exChannelStats ["v1", "v2"]
    3000 5 exNow = [exRow1, exRow2] := by
  unfold final_results
  simp only [List.filterMap_cons, List.filterMap_nil, ex_proc1, ex_proc2]

lemma exRow1_score : exRow1.Virality_Score = 5 := by
  have h : exRow1.Virality_Score
      = pyRound2 (((500 : ℕ) : ℚ) / (((99 : ℕ) : ℚ) + 1)) := rfl
  rw [h, pyRound2_eq_int _ 5 (by norm_num)]
  norm_num

lemma exRow2_score : exRow2.Virality_Score = 5 := by
  have h : exRow2.Virality_Score
      = pyRound2 (((1000 : ℕ) : ℚ) / (((199 : ℕ) : ℚ) + 1)) := rfl
  rw [h, pyRound2_eq_int _ 5 (by norm_num)]
  norm_num

lemma byScore_ex : byScoreAsc exRow2 exRow1 := by
  unfold byScoreAsc
  rw [exRow1_score, exRow2_score]

lemma ex_sorted : df_sorted exSnippets exVideoStats exChannelStats ["v1", "v2"]
    3000 5 exNow = [exRow1, exRow2] := by
  unfold df_sorted sort_values_desc
  rw [ex_final, show ([exRow1, exRow2] : List ResultRow).reverse
      = [exRow2, exRow1] from rfl]
  have hs : List.insertionSort byScoreAsc [exRow2, exRow1] = [exRow2, exRow1] := by
    simp only [List.insertionSort, List.orderedInsert]
    rw [if_pos byScore_ex]
  rw [hs]
  rfl

/-! ### Claim theorems about the join-filter-score engine -/

/-- C1: every row emitted by the engine stores as its virality score
exactly `round(views / (subs + 1), 2)` computed from its own stored view
and subscriber counts; the spec's two numeric examples hold, and the `+1`
denominator is positive (hence the division well-defined) for every
non-negative subscriber count. -/
theorem virality_score_invariant (video_snippets_map : String → Option Snippet)
    (video_stats_map : String → Option VideoItem)
    (channel_stats_map : String → Option ChannelItem)
    (all_video_ids : List String) (max_subs : ℕ) (min_virality : ℚ) (now : ℤ)
    (row : ResultRow)
    (h : row ∈ df_sorted video_snippets_map video_stats_map channel_stats_map
        all_video_ids max_subs min_virality now) :
    row.Virality_Score = pyRound2 ((row.Views : ℚ) / ((row.Subscribers : ℚ) + 1))
    ∧ pyRound2 ((500 : ℚ) / ((99 : ℚ) + 1)) = 5
    ∧ pyRound2 ((1000000 : ℚ) / ((0 : ℚ) + 1)) = 1000000
    ∧ ∀ subs : ℕ, (0 : ℚ) < (subs : ℚ) + 1 := by
  refine ⟨?_, by rw [pyRound2_eq_int _ 5 (by norm_num)]; norm_num,
    by rw [pyRound2_eq_int _ 1000000 (by norm_num)]; norm_num,
    fun subs => by positivity⟩
  have h' : row ∈ final_results video_snippets_map video_stats_map channel_stats_map
      all_video_ids max_subs min_virality now :=
    (df_sorted_perm_final_results _ _ _ _ _ _ _).mem_iff.mp h
  rw [final_results, List.mem_filterMap] at h'
  obtain ⟨v, _, hproc⟩ := h'
  obtain ⟨snippet, stat, channel_stat, _, _, _, _, _, rfl⟩ :=
    (processVideo_eq_some _ _ _ _ _ _ _ _).mp hproc
  rfl

/-- Witness for C1: the theorem applied to the concrete row for `v1`
(500 views, 99 subscribers), whose stored score is 5. -/
theorem virality_score_invariant_witness :
    exRow1 ∈ df_sorted exSnippets exVideoStats exChannelStats ["v1", "v2"] 3000 5 exNow
    ∧ exRow1.Virality_Score = pyRound2 ((exRow1.Views : ℚ) / ((exRow1.Subscribers : ℚ) + 1))
    ∧ exRow1.Virality_Score = 5 :=
  ⟨by rw [ex_sorted]; exact List.mem_cons_self _ _,
   (virality_score_invariant exSnippets exVideoStats exChannelStats ["v1", "v2"]
      3000 5 exNow exRow1
      (by rw [ex_sorted]; exact List.mem_cons_self _ _)).1,
   exRow1_score⟩

/-- C2: an identifier of the ordered list contributes a row exactly when
its snippet and its video statistics are present, its channel's statistics
are present under the snippet's channel identifier, its subscriber count
(defaulting to 0 when absent) is at most `max_subs`, and its unrounded
score `views / (subs + 1)` is at least `min_virality`; the comparisons are
non-strict, so both boundary cases pass, and failing identifiers are
skipped without an error. -/
theorem result_row_iff (video_snippets_map : String → Option Snippet)
    (video_stats_map : String → Option VideoItem)
    (channel_stats_map : String → Option ChannelItem)
    (all_video_ids : List String) (max_subs : ℕ) (min_virality : ℚ) (now : ℤ)
    (v : String) (hv : v ∈ all_video_ids) :
    (∃ row ∈ final_results video_snippets_map video_stats_map channel_stats_map
        all_video_ids max_subs min_virality now, row.Video_ID = v) ↔
      ∃ snippet stat channel_stat,
        video_snippets_map v = some snippet ∧
        video_stats_map v = some stat ∧
        Option.bind snippet.channelId channel_stats_map = some channel_stat ∧
        channel_stat.statistics.subscriberCount.getD 0 ≤ max_subs ∧
        min_virality ≤ (stat.statistics.viewCount.getD 0 : ℚ)
          / ((channel_stat.statistics.subscriberCount.getD 0 : ℚ) + 1) := by
  constructor
  · rintro ⟨row, hrow, hid⟩
    rw [final_results, List.mem_filterMap] at hrow
    obtain ⟨w, _, hproc⟩ := hrow
    have hw : row.Video_ID = w := processVideo_id _ _ _ _ _ _ _ _ hproc
    rw [hid] at hw
    subst hw
    obtain ⟨snippet, stat, channel_stat, h1, h2, h3, h4, h5, _⟩ :=
      (processVideo_eq_some _ _ _ _ _ _ _ _).mp hproc
    exact ⟨snippet, stat, channel_stat, h1, h2, h3, h4, h5⟩
  · rintro ⟨snippet, stat, channel_stat, h1, h2, h3, h4, h5⟩
    refine ⟨mkRow v snippet stat channel_stat now, ?_, rfl⟩
    rw [final_results, List.mem_filterMap]
    exact ⟨v, hv, (processVideo_eq_some _ _ _ _ _ _ _ _).mpr
      ⟨snippet, stat, channel_stat, h1, h2, h3, h4, h5, rfl⟩⟩

/-- Witness for C2: the engine run on the concrete maps produces a row for
`v1`, obtained by applying the characterisation at `v1 ∈ ["v1", "v2"]`. -/
theorem result_row_iff_witness :
    ("v1" : String) ∈ (["v1", "v2"] : List String)
    ∧ ∃ row ∈ final_results exSnippets exVideoStats exChannelStats
        ["v1", "v2"] 3000 5 exNow, row.Video_ID = "v1" :=
  ⟨by decide,
   (result_row_iff exSnippets exVideoStats exChannelStats ["v1", "v2"] 3000 5 exNow
      "v1" (by decide)).mpr
    ⟨exSnippet1, exVideo1, exChannel1, rfl, rfl, rfl, by decide,
     by norm_num [exVideo1, exChannel1]⟩⟩

/-- C8: the `Days_Published` field of an emitted row is the floor of the
whole days elapsed from the video's publish timestamp to the current
instant, computed on the timezone-naive wall-clock parts only (the
publish timestamp's zone offset is discarded by `replace(tzinfo=None)`
and never enters the subtraction). -/
theorem days_published_spec (video_snippets_map : String → Option Snippet)
    (video_stats_map : String → Option VideoItem)
    (channel_stats_map : String → Option ChannelItem)
    (max_subs : ℕ) (min_virality : ℚ) (now : ℤ) (v : String) (row : ResultRow)
    (snippet : Snippet)
    (hrow : processVideo video_snippets_map video_stats_map channel_stats_map
        max_subs min_virality now v = some row)
    (hsnip : video_snippets_map v = some snippet) :
    row.Days_Published = (now - snippet.publishedAt.wallSeconds).fdiv 86400 := by
  obtain ⟨snippet', stat, channel_stat, h1, _, _, _, _, rfl⟩ :=
    (processVideo_eq_some _ _ _ _ _ _ _ _).mp hrow
  have he : snippet' = snippet := by
    rw [hsnip] at h1
    exact (Option.some.inj h1).symm
  subst he
  rfl

/-- Witness for C8: the row for `v1`, published exactly 3 days before the
current instant, has `Days_Published` given by the floor formula. -/
theorem days_published_spec_witness :
    processVideo exSnippets exVideoStats exChannelStats 3000 5 exNow "v1" = some exRow1
    ∧ exRow1.Days_Published = (exNow - exSnippet1.publishedAt.wallSeconds).fdiv 86400
    ∧ exRow1.Days_Published = 3 :=
  ⟨ex_proc1,
   days_published_spec exSnippets exVideoStats exChannelStats 3000 5 exNow "v1" exRow1
     exSnippet1 ex_proc1 rfl,
   by decide⟩

/-- C9: the join-filter-sort section is deterministic in its inputs:
two runs over maps that agree pointwise, the same identifier list, the
same thresholds and the same current instant return identical ordered
output. -/
theorem engine_deterministic (smap₁ smap₂ : String → Option Snippet)
    (vmap₁ vmap₂ : String → Option VideoItem)
    (cmap₁ cmap₂ : String → Option ChannelItem)
    (all_video_ids : List String) (max_subs : ℕ) (min_virality : ℚ) (now : ℤ)
    (hs : ∀ k, smap₁ k = smap₂ k) (hv : ∀ k, vmap₁ k = vmap₂ k)
    (hc : ∀ k, cmap₁ k = cmap₂ k) :
    df_sorted smap₁ vmap₁ cmap₁ all_video_ids max_subs min_virality now
      = df_sorted smap₂ vmap₂ cmap₂ all_video_ids max_subs min_virality now := by
  rw [funext hs, funext hv, funext hc]

/-- Witness for C9: the determinism theorem applied to the concrete run,
with the pointwise-agreement hypotheses discharged by reflexivity. -/
theorem engine_deterministic_witness :
    df_sorted exSnippets exVideoStats exChannelStats ["v1", "v2"] 3000 5 exNow
      = df_sorted exSnippets exVideoStats exChannelStats ["v1", "v2"] 3000 5 exNow :=
  engine_deterministic exSnippets exSnippets exVideoStats exVideoStats
    exChannelStats exChannelStats ["v1", "v2"] 3000 5 exNow
    (fun _ => rfl) (fun _ => rfl) (fun _ => rfl)

/-- C3: the final output is the full multiset of qualifying rows (no
top-K cutoff, a permutation of `final_results`), sorted by virality score
descending so that adjacent pairs satisfy `score[i] >= score[i+1]`, by a
stable sort: for every score value, the output's rows with that score are
exactly the rows of `final_results` with that score in the same order —
so ties keep their relative order of first appearance in the identifier
list. -/
theorem df_sorted_ranked (video_snippets_map : String → Option Snippet)
    (video_stats_map : String → Option VideoItem)
    (channel_stats_map : String → Option ChannelItem)
    (all_video_ids : List String) (max_subs : ℕ) (min_virality : ℚ) (now : ℤ) :
    (df_sorted video_snippets_map video_stats_map channel_stats_map
        all_video_ids max_subs min_virality now).Perm
      (final_results video_snippets_map video_stats_map channel_stats_map
        all_video_ids max_subs min_virality now)
    ∧ (df_sorted video_snippets_map video_stats_map channel_stats_map
        all_video_ids max_subs min_virality now).Pairwise
        (fun a b => b.Virality_Score ≤ a.Virality_Score)
    ∧ ∀ q : ℚ,
        (df_sorted video_snippets_map video_stats_map channel_stats_map
            all_video_ids max_subs min_virality now).filter
          (fun row => row.Virality_Score == q)
        = (final_results video_snippets_map video_stats_map channel_stats_map
            all_video_ids max_subs min_virality now).filter
          (fun row => row.Virality_Score == q) := by
  refine ⟨df_sorted_perm_final_results _ _ _ _ _ _ _, ?_, ?_⟩
  · have hs : List.Sorted byScoreAsc (List.insertionSort byScoreAsc
        (final_results video_snippets_map video_stats_map channel_stats_map
          all_video_ids max_subs min_virality now).reverse) :=
      List.sorted_insertionSort byScoreAsc _
    unfold df_sorted sort_values_desc
    rw [List.pairwise_reverse]
    exact hs
  · intro q
    unfold df_sorted sort_values_desc
    rw [List.filter_reverse, insertionSort_filter_score, List.filter_reverse,
      List.reverse_reverse]

example : (df_sorted exSnippets exVideoStats exChannelStats ["v1", "v2"] 3000 5 exNow).map
    ResultRow.Video_ID = ["v1", "v2"] := by
  rw [ex_sorted]
  rfl

/-! ### Search collector (trend_finder.py lines 95-129)

The keyword loop accumulates `all_video_ids`, the parallel
`all_channel_ids`, and `video_snippets_map`.  Each response either lacks
an `items` key (`none`, contributing nothing) or carries a list of items;
for each item, `v_id = video["id"].get("videoId")` and
`c_id = video["snippet"].get("channelId")` are recorded only when both are
truthy (neither `None` nor empty) and `v_id` was not seen before. -/

/-- One item of a search response. -/
structure SearchItem where
  videoId : Option String
  snippet : Snippet
deriving DecidableEq

/-- The collector's accumulated state. -/
structure CollectState where
  all_video_ids : List String
  all_channel_ids : List String
  video_snippets_map : String → Option Snippet

/-- The three appends of lines 123-125. -/
def recordItem (st : CollectState) (v_id c_id : String) (snip : Snippet) : CollectState :=
  { all_video_ids := st.all_video_ids ++ [v_id]
    all_channel_ids := st.all_channel_ids ++ [c_id]
    video_snippets_map := fun k => if k = v_id then some snip else st.video_snippets_map k }

/-- Embeds the loop body `if v_id and c_id and v_id not in all_video_ids:`
(lines 119-125); Python truthiness of the optional strings makes `None`
and `""` both falsy. -/
def collectStep (st : CollectState) (it : SearchItem) : CollectState :=
  match it.videoId, it.snippet.channelId with
  | some v_id, some c_id =>
    if v_id ≠ "" ∧ c_id ≠ "" ∧ v_id ∉ st.all_video_ids then
      recordItem st v_id c_id it.snippet
    else st
  | _, _ => st

/-- The empty state of lines 95-97. -/
def initState : CollectState := ⟨[], [], fun _ => none⟩

/-- The items contributed by the keyword loop's responses, in order; a
response lacking an `items` key contributes nothing. -/
def searchItems : List (Option (List SearchItem)) → List SearchItem
  | [] => []
  | r :: rs => r.getD [] ++ searchItems rs

/-- The whole search-collection phase. -/
def collectSearch (responses : List (Option (List SearchItem))) : CollectState :=
  (searchItems responses).foldl collectStep initState

/-- An item that can record identifier `v`: its video identifier is `v`
and its channel identifier is truthy. -/
def isHit (v : String) (it : SearchItem) : Bool :=
  it.videoId == some v &&
    match it.snippet.channelId with
    | some c => c != ""
    | none => false

lemma collectStep_spec (st : CollectState) (it : SearchItem) (v : String) (hv : v ≠ "") :
    ((collectStep st it).all_video_ids.count v
      = st.all_video_ids.count v
        + (if v ∉ st.all_video_ids ∧ isHit v it = true then 1 else 0))
    ∧ ((collectStep st it).video_snippets_map v
      = if v ∉ st.all_video_ids ∧ isHit v it = true then some it.snippet
        else st.video_snippets_map v)
    ∧ (v ∈ (collectStep st it).all_video_ids
      ↔ (v ∈ st.all_video_ids ∨ isHit v it = true)) := by
  rcases hvid : it.videoId with _ | w
  · have hstep : collectStep st it = st := by simp [collectStep, hvid]
    have hhit : isHit v it = false := by simp [isHit, hvid]
    rw [hstep, hhit]
    simp
  · rcases hcid : it.snippet.channelId with _ | c
    · have hstep : collectStep st it = st := by simp [collectStep, hvid, hcid]
      have hhit : isHit v it = false := by simp [isHit, hvid, hcid]
      rw [hstep, hhit]
      simp
    · by_cases hcond : w ≠ "" ∧ c ≠ "" ∧ w ∉ st.all_video_ids
      · have hstep : collectStep st it = recordItem st w c it.snippet := by
          simp [collectStep, hvid, hcid, hcond]
        by_cases hwv : w = v
        · subst hwv
          have hhit : isHit w it = true := by
            simp [isHit, hvid, hcid, hcond.2.1]
          rw [hstep, hhit]
          refine ⟨?_, ?_, ?_⟩
          · simp [recordItem, List.count_append, List.count_cons, hcond.2.2]
          · simp [recordItem, hcond.2.2]
          · simp [recordItem, List.mem_append]
        · have hhit : isHit v it = false := by
            simp [isHit, hvid, hcid, hwv]
          rw [hstep, hhit]
          refine ⟨?_, ?_, ?_⟩
          · simp [recordItem, List.count_append, List.count_cons, hwv]
          · simp [recordItem, Ne.symm hwv]
          · simp [recordItem, List.mem_append, Ne.symm hwv]
      · have hstep : collectStep st it = st := by simp [collectStep, hvid, hcid, hcond]
        rw [hstep]
        by_cases hwv : w = v
        · subst hwv
          by_cases hcv : c = ""
          · have hhit : isHit w it = false := by simp [isHit, hvid, hcid, hcv]
            rw [hhit]
            simp
          · have hmem : w ∈ st.all_video_ids := by
              by_contra hnot
              exact hcond ⟨hv, hcv, hnot⟩
            have hhit : isHit w it = true := by simp [isHit, hvid, hcid, hcv]
            rw [hhit]
            simp [hmem]
        · have hhit : isHit v it = false := by simp [isHit, hvid, hcid, hwv]
          rw [hhit]
          simp

lemma collect_foldl_spec (v : String) (hv : v ≠ "") :
    ∀ (items : List SearchItem) (st : CollectState),
      ((List.foldl collectStep st items).all_video_ids.count v
        = st.all_video_ids.count v
          + (if v ∈ st.all_video_ids then 0
             else if items.any (isHit v) then 1 else 0))
      ∧ ((List.foldl collectStep st items).video_snippets_map v
        = if v ∈ st.all_video_ids then st.video_snippets_map v
          else
            match items.find? (isHit v) with
            | some it => some it.snippet
            | none => st.video_snippets_map v)
      ∧ (v ∈ (List.foldl collectStep st items).all_video_ids
        ↔ (v ∈ st.all_video_ids ∨ items.any (isHit v) = true)) := by
  intro items
  induction items with
  | nil =>
    intro st
    refine ⟨by simp, by simp, by simp⟩
  | cons it its ih =>
    intro st
    obtain ⟨hc, hm, hmem⟩ := collectStep_spec st it v hv
    obtain ⟨ihc, ihm, ihmem⟩ := ih (collectStep st it)
    rw [List.foldl_cons]
    by_cases hin : v ∈ st.all_video_ids
    · have hin' : v ∈ (collectStep st it).all_video_ids := hmem.mpr (Or.inl hin)
      have hnc : ¬(v ∉ st.all_video_ids ∧ isHit v it = true) := fun hx => hx.1 hin
      refine ⟨?_, ?_, ?_⟩
      · rw [ihc, if_pos hin', hc, if_neg hnc, if_pos hin]
      · rw [ihm, if_pos hin', hm, if_neg hnc, if_pos hin]
      · rw [ihmem, hmem]
        simp [hin]
    · by_cases hhit : isHit v it = true
      · have hin' : v ∈ (collectStep st it).all_video_ids := hmem.mpr (Or.inr hhit)
        refine ⟨?_, ?_, ?_⟩
        · rw [ihc, if_pos hin', hc, if_pos ⟨hin, hhit⟩, if_neg hin, List.any_cons, hhit]
          simp
        · rw [ihm, if_pos hin', hm, if_pos ⟨hin, hhit⟩, if_neg hin,
            List.find?_cons_of_pos _ hhit]
        · rw [ihmem, hmem]
          simp [hhit]
      · have hin' : v ∉ (collectStep st it).all_video_ids := by
          rw [hmem]
          simp [hin, hhit]
        have hnc : ¬(v ∉ st.all_video_ids ∧ isHit v it = true) := fun hx => hhit hx.2
        refine ⟨?_, ?_, ?_⟩
        · rw [ihc, if_neg hin', hc, if_neg hnc, if_neg hin, List.any_cons]
          simp [hhit]
        · rw [ihm, if_neg hin', hm, if_neg hnc, if_neg hin,
            List.find?_cons_of_neg _ (by simp [hhit])]
        · rw [ihmem, hmem, List.any_cons]
          simp [hhit]

lemma collectStep_inv (st : CollectState) (it : SearchItem)
    (h1 : st.all_video_ids.length = st.all_channel_ids.length)
    (h2 : st.all_video_ids.Nodup)
    (h3 : ∀ k, ((st.video_snippets_map k).isSome = true) ↔ k ∈ st.all_video_ids) :
    ((collectStep st it).all_video_ids.length
        = (collectStep st it).all_channel_ids.length)
    ∧ (collectStep st it).all_video_ids.Nodup
    ∧ ∀ k, (((collectStep st it).video_snippets_map k).isSome = true)
        ↔ k ∈ (collectStep st it).all_video_ids := by
  rcases hvid : it.videoId with _ | w
  · simp only [collectStep, hvid]
    exact ⟨h1, h2, h3⟩
  · rcases hcid : it.snippet.channelId with _ | c
    · simp only [collectStep, hvid, hcid]
      exact ⟨h1, h2, h3⟩
    · by_cases hcond : w ≠ "" ∧ c ≠ "" ∧ w ∉ st.all_video_ids
      · have hstep : collectStep st it = recordItem st w c it.snippet := by
          simp [collectStep, hvid, hcid, hcond]
        rw [hstep]
        refine ⟨?_, ?_, ?_⟩
        · simp [recordItem, h1]
        · simp [recordItem, List.nodup_append, h2, hcond.2.2]
        · intro k
          by_cases hk : k = w
          · subst hk
            simp [recordItem]
          · simp [recordItem, hk, h3 k, List.mem_append]
      · have hstep : collectStep st it = st := by simp [collectStep, hvid, hcid, hcond]
        rw [hstep]
        exact ⟨h1, h2, h3⟩

lemma collect_foldl_inv :
    ∀ (items : List SearchItem) (st : CollectState),
      (st.all_video_ids.length = st.all_channel_ids.length) →
      st.all_video_ids.Nodup →
      (∀ k, ((st.video_snippets_map k).isSome = true) ↔ k ∈ st.all_video_ids) →
      ((List.foldl collectStep st items).all_video_ids.length
          = (List.foldl collectStep st items).all_channel_ids.length)
      ∧ (List.foldl collectStep st items).all_video_ids.Nodup
      ∧ ∀ k, (((List.foldl collectStep st items).video_snippets_map k).isSome = true)
          ↔ k ∈ (List.foldl collectStep st items).all_video_ids := by
  intro items
  induction items with
  | nil => intro st h1 h2 h3; exact ⟨h1, h2, h3⟩
  | cons it its ih =>
    intro st h1 h2 h3
    obtain ⟨g1, g2, g3⟩ := collectStep_inv st it h1 h2 h3
    rw [List.foldl_cons]
    exact ih (collectStep st it) g1 g2 g3

/-- C10: after the whole collection phase the ordered identifier list and
the parallel channel list have equal length, the identifier list has no
duplicates, and the snippet map holds a value exactly at the collected
identifiers — so every identifier the join loop iterates has a snippet
entry. -/
theorem collect_invariant (responses : List (Option (List SearchItem))) :
    ((collectSearch responses).all_video_ids.length
        = (collectSearch responses).all_channel_ids.length)
    ∧ (collectSearch responses).all_video_ids.Nodup
    ∧ ∀ k, (((collectSearch responses).video_snippets_map k).isSome = true)
        ↔ k ∈ (collectSearch responses).all_video_ids :=
  collect_foldl_inv (searchItems responses) initState rfl List.nodup_nil
    (fun k => by simp [initState])

/-- C6: a video identifier is recorded exactly when some response item
carries it with a truthy channel identifier, it then occurs exactly once
in `all_video_ids` however many keywords returned it, and the snippet
stored for it is the one of its first occurrence. -/
theorem search_dedup (responses : List (Option (List SearchItem))) (v : String)
    (hv : v ≠ "") :
    ((collectSearch responses).all_video_ids.count v
      = if (searchItems responses).any (isHit v) then 1 else 0)
    ∧ (collectSearch responses).video_snippets_map v
      = ((searchItems responses).find? (isHit v)).map SearchItem.snippet := by
  obtain ⟨hcount, hmap, -⟩ :=
    collect_foldl_spec v hv (searchItems responses) initState
  constructor
  · rw [collectSearch, hcount]
    simp [initState]
  · rw [collectSearch, hmap]
    have : v ∈ (initState).all_video_ids ↔ False := by simp [initState]
    rw [if_neg (by simp [initState])]
    cases hf : (searchItems responses).find? (isHit v) with
    | none => simp [initState]
    | some it => simp

/-! ### Concrete search responses: the same identifier returned by two
different keywords, with different snippets. -/

def exItemA : SearchItem := ⟨some "v1", exSnippet1⟩

def exItemB : SearchItem := ⟨some "v1", exSnippet2⟩

def exResponses : List (Option (List SearchItem)) := [some [exItemA], some [exItemB]]

/-- Witness for C6: applying the dedup theorem to a run where `v1` comes
back for two keywords; it is counted once and keeps the first snippet. -/
theorem search_dedup_witness :
    ("v1" : String) ≠ ""
    ∧ ((collectSearch exResponses).all_video_ids.count "v1"
      = if (searchItems exResponses).any (isHit "v1") then 1 else 0)
    ∧ (collectSearch exResponses).video_snippets_map "v1"
      = ((searchItems exResponses).find? (isHit "v1")).map SearchItem.snippet :=
  ⟨by decide,
   (search_dedup exResponses "v1" (by decide)).1,
   (search_dedup exResponses "v1" (by decide)).2⟩

example : (collectSearch exResponses).all_video_ids = ["v1"] := by decide
example : (collectSearch exResponses).video_snippets_map "v1" = some exSnippet1 := by decide

/-! ### Batch statistics fetcher (trend_finder.py lines 140-162)

`for i in range(0, len(ids), 50): batch_ids = ids[i:i+50]` partitions the
identifier list into consecutive batches of at most 50.  Each batch's
response either has an `items` key (each item stored into the map keyed by
`item['id']`) or not (the batch contributes nothing).  The same loop shape
is used for `video_stats_map` over `all_video_ids` and for
`channel_stats_map` over `unique_channel_ids`, so the development is
generic in the item type and its identifier projection. -/

/-- The batch slicing of `range(0, len(ids), 50)`, with structural fuel
(the list length) so that concrete batches evaluate. -/
def chunks50Go : ℕ → List String → List (List String)
  | _, [] => []
  | 0, _ :: _ => []
  | fuel + 1, x :: xs => ((x :: xs).take 50) :: chunks50Go fuel ((x :: xs).drop 50)

/-- The consecutive batches of at most 50 identifiers. -/
def chunks50 (ids : List String) : List (List String) :=
  chunks50Go ids.length ids

/-- `map[item['id']] = item`: pointwise map update keyed by the item's own
identifier. -/
def insertItem {α : Type} (key : α → String) (m : String → Option α) (it : α) :
    String → Option α :=
  fun k => if k = key it then some it else m k

/-- One iteration of the batch loop: if the response has an `items` key,
store each item keyed by its own identifier, else leave the map unchanged. -/
def fetchBatch {α : Type} (key : α → String)
    (respond : List String → Option (List α))
    (m : String → Option α) (batch : List String) : String → Option α :=
  match respond batch with
  | some items => items.foldl (insertItem key) m
  | none => m

/-- The whole batch loop, starting from the empty map of line 140 / 153. -/
def fetchBatches {α : Type} (key : α → String)
    (respond : List String → Option (List α)) (ids : List String) :
    String → Option α :=
  (chunks50 ids).foldl (fetchBatch key respond) (fun _ => none)

lemma chunks50Go_flatten :
    ∀ (fuel : ℕ) (l : List String), l.length ≤ fuel →
      (chunks50Go fuel l).flatten = l := by
  intro fuel
  induction fuel with
  | zero =>
    intro l hl
    cases l with
    | nil => rfl
    | cons x xs => simp at hl
  | succ f ih =>
    intro l hl
    cases l with
    | nil => rfl
    | cons x xs =>
      have hd : ((x :: xs).drop 50).length ≤ f := by
        rw [List.length_drop]
        simp only [List.length_cons] at hl ⊢
        omega
      show ((x :: xs).take 50 :: chunks50Go f ((x :: xs).drop 50)).flatten = x :: xs
      rw [List.flatten_cons, ih _ hd, List.take_append_drop]

lemma chunks50Go_mem :
    ∀ (fuel : ℕ) (l : List String) (b : List String), l.length ≤ fuel →
      b ∈ chunks50Go fuel l → b.length ≤ 50 ∧ b ≠ [] := by
  intro fuel
  induction fuel with
  | zero =>
    intro l b hl hb
    cases l with
    | nil => simp [chunks50Go] at hb
    | cons x xs => simp at hl
  | succ f ih =>
    intro l b hl hb
    cases l with
    | nil => simp [chunks50Go] at hb
    | cons x xs =>
      have hd : ((x :: xs).drop 50).length ≤ f := by
        rw [List.length_drop]
        simp only [List.length_cons] at hl ⊢
        omega
      rw [show chunks50Go (f + 1) (x :: xs)
          = ((x :: xs).take 50) :: chunks50Go f ((x :: xs).drop 50) from rfl,
        List.mem_cons] at hb
      rcases hb with rfl | hb
      · constructor
        · rw [List.length_take]
          omega
        · rw [show (50 : ℕ) = 49 + 1 from rfl, List.take_succ_cons]
          simp
      · exact ih _ _ hd hb

lemma insertFold_isSome {α : Type} (key : α → String) :
    ∀ (items : List α) (m : String → Option α) (k : String),
      (((items.foldl (insertItem key) m) k).isSome = true)
        ↔ ((m k).isSome = true ∨ ∃ it ∈ items, key it = k) := by
  intro items
  induction items with
  | nil => intro m k; simp
  | cons it its ih =>
    intro m k
    rw [List.foldl_cons, ih]
    by_cases hk : k = key it
    · subst hk
      simp [insertItem]
    · simp only [insertItem, if_neg hk, List.mem_cons]
      constructor
      · rintro (h | ⟨w, hw, hkw⟩)
        · exact Or.inl h
        · exact Or.inr ⟨w, Or.inr hw, hkw⟩
      · rintro (h | ⟨w, (rfl | hw), hkw⟩)
        · exact Or.inl h
        · exact absurd hkw.symm hk
        · exact Or.inr ⟨w, hw, hkw⟩

lemma insertFold_eq_some {α : Type} (key : α → String) :
    ∀ (items : List α) (m : String → Option α) (k : String) (it : α),
      (items.foldl (insertItem key) m) k = some it →
      m k = some it ∨ (key it = k ∧ it ∈ items) := by
  intro items
  induction items with
  | nil => intro m k it h; exact Or.inl h
  | cons x its ih =>
    intro m k it h
    rw [List.foldl_cons] at h
    rcases ih _ _ _ h with h' | ⟨hkey, hmem⟩
    · unfold insertItem at h'
      by_cases hk : k = key x
      · rw [if_pos hk] at h'
        refine Or.inr ⟨?_, ?_⟩
        · rw [← Option.some.inj h', ← hk]
        · rw [← Option.some.inj h']
          exact List.mem_cons_self _ _
      · rw [if_neg hk] at h'
        exact Or.inl h'
    · exact Or.inr ⟨hkey, List.mem_cons_of_mem _ hmem⟩

lemma fetchFold_isSome {α : Type} (key : α → String)
    (respond : List String → Option (List α)) :
    ∀ (bs : List (List String)) (m : String → Option α) (k : String),
      (((bs.foldl (fetchBatch key respond) m) k).isSome = true)
        ↔ ((m k).isSome = true
            ∨ ∃ b ∈ bs, ∃ items, respond b = some items ∧ ∃ it ∈ items, key it = k) := by
  intro bs
  induction bs with
  | nil => intro m k; simp
  | cons b bs ih =>
    intro m k
    rw [List.foldl_cons, ih]
    cases hr : respond b with
    | none =>
      rw [show fetchBatch key respond m b = m by simp [fetchBatch, hr]]
      constructor
      · rintro (h | ⟨w, hw, rest⟩)
        · exact Or.inl h
        · exact Or.inr ⟨w, List.mem_cons_of_mem _ hw, rest⟩
      · rintro (h | ⟨w, hw, items, hitems, rest⟩)
        · exact Or.inl h
        · rcases List.mem_cons.mp hw with rfl | hw'
          · rw [hr] at hitems
            cases hitems
          · exact Or.inr ⟨w, hw', items, hitems, rest⟩
    | some items =>
      rw [show fetchBatch key respond m b = items.foldl (insertItem key) m by
        simp [fetchBatch, hr], insertFold_isSome]
      constructor
      · rintro ((h | ⟨it, hit, hkey⟩) | ⟨w, hw, rest⟩)
        · exact Or.inl h
        · exact Or.inr ⟨b, List.mem_cons_self _ _, items, hr, it, hit, hkey⟩
        · exact Or.inr ⟨w, List.mem_cons_of_mem _ hw, rest⟩
      · rintro (h | ⟨w, hw, items', hitems', rest⟩)
        · exact Or.inl (Or.inl h)
        · rcases List.mem_cons.mp hw with rfl | hw'
          · rw [hr] at hitems'
            obtain ⟨it, hit, hkey⟩ := rest
            exact Or.inl (Or.inr ⟨it, (Option.some.inj hitems') ▸ hit, hkey⟩)
          · exact Or.inr ⟨w, hw', items', hitems', rest⟩

lemma fetchFold_eq_some {α : Type} (key : α → String)
    (respond : List String → Option (List α)) :
    ∀ (bs : List (List String)) (m : String → Option α) (k : String) (it : α),
      (bs.foldl (fetchBatch key respond) m) k = some it →
      m k = some it
        ∨ (key it = k ∧ ∃ b ∈ bs, ∃ items, respond b = some items ∧ it ∈ items) := by
  intro bs
  induction bs with
  | nil => intro m k it h; exact Or.inl h
  | cons b bs ih =>
    intro m k it h
    rw [List.foldl_cons] at h
    rcases ih _ _ _ h with h' | ⟨hkey, w, hw, items, hitems, hmem⟩
    · unfold fetchBatch at h'
      cases hr : respond b with
      | none =>
        rw [hr] at h'
        exact Or.inl h'
      | some items =>
        rw [hr] at h'
        rcases insertFold_eq_some key items m k it h' with h'' | ⟨hkey, hmem⟩
        · exact Or.inl h''
        · exact Or.inr ⟨hkey, b, List.mem_cons_self _ _, items, hr, hmem⟩
    · exact Or.inr ⟨hkey, w, List.mem_cons_of_mem _ hw, items, hitems, hmem⟩

/-- C7: the batch loop partitions the ordered identifier list into
consecutive batches of at most 50 (their concatenation is the original
list and none is empty), the resulting map holds a value at `k` exactly
when some batch's successful response contains an item whose own
identifier is `k`, and every stored value is such an item from a
successful batch (so a response without an `items` key contributes
nothing and raises no error).  The statement is generic in the item type,
covering both the video-stats loop over `all_video_ids` and the
channel-stats loop over `unique_channel_ids`. -/
theorem batch_fetch_spec {α : Type} (key : α → String)
    (respond : List String → Option (List α)) (ids : List String) :
    (chunks50 ids).flatten = ids
    ∧ (∀ b ∈ chunks50 ids, b.length ≤ 50 ∧ b ≠ [])
    ∧ (∀ k, (((fetchBatches key respond ids) k).isSome = true)
        ↔ ∃ b ∈ chunks50 ids, ∃ items, respond b = some items
            ∧ ∃ it ∈ items, key it = k)
    ∧ (∀ k it, fetchBatches key respond ids k = some it
        → key it = k ∧ ∃ b ∈ chunks50 ids, ∃ items, respond b = some items
            ∧ it ∈ items) := by
  refine ⟨chunks50Go_flatten _ _ le_rfl,
    fun b hb => chunks50Go_mem _ _ b le_rfl hb, ?_, ?_⟩
  · intro k
    rw [fetchBatches, fetchFold_isSome]
    simp
  · intro k it h
    rcases fetchFold_eq_some key respond (chunks50 ids) _ k it h with h' | ⟨hkey, hrest⟩
    · cases h'
    · exact ⟨hkey, hrest⟩

/-- A response function for the witness: every requested identifier comes
back as an item with empty statistics. -/
def exRespond : List String → Option (List VideoItem) :=
  fun batch => some (batch.map fun s => ⟨s, ⟨none⟩, ⟨none⟩⟩)

/-- Witness for C7: the batch theorem applied at a concrete two-identifier
list, discharging the chunk-membership and lookup hypotheses there. -/
theorem batch_fetch_spec_witness :
    (chunks50 ["a", "b"]).flatten = ["a", "b"]
    ∧ (["a", "b"] : List String).length ≤ 50
    ∧ ((fetchBatches VideoItem.id exRespond ["a", "b"]) "a").isSome = true :=
  ⟨(batch_fetch_spec VideoItem.id exRespond ["a", "b"]).1,
   ((batch_fetch_spec VideoItem.id exRespond ["a", "b"]).2.1 ["a", "b"] (by decide)).1,
   ((batch_fetch_spec VideoItem.id exRespond ["a", "b"]).2.2.1 "a").mpr
     ⟨["a", "b"], by decide, [⟨"a", ⟨none⟩, ⟨none⟩⟩, ⟨"b", ⟨none⟩, ⟨none⟩⟩], rfl,
      ⟨"a", ⟨none⟩, ⟨none⟩⟩, by decide, rfl⟩⟩

example : (fetchBatches VideoItem.id exRespond ["a", "b"]) "a"
    = some ⟨"a", ⟨none⟩, ⟨none⟩⟩ := by decide
example : (fetchBatches VideoItem.id (fun _ => none) ["a", "b"]) "a" = none := by decide
